import Mathlib

/-!
Verification of `plc_logger_gui.py`, a Snap7 PLC logger GUI.

The development shallowly embeds the pure/algorithmic parts of the script:
* `_parse_data`, the byte-to-value decoder (bytes are modelled as `List Nat`
  with every element `< 256`; a `REAL` value is represented by its 4-byte
  big-endian bit pattern, since only the error/length behaviour of the REAL
  branch is at stake here, never float arithmetic);
* the polling loop `_poll` (row construction with Python-dict semantics,
  appending to the in-memory table and to the temp CSV file, the error
  branch, the sleep interval);
* `start_polling` / `resume_polling` / `export_excel` as state transitions;
* the column-name round trip between `_poll` and `_load_temp_data`.
-/

namespace PLCLogger

/-- A Python value produced by `_parse_data`: a bool, an int, or a REAL.
A REAL is carried as its 4 big-endian bytes (the IEEE-754 bit pattern),
because the script never computes with the float, it only stores it. -/
inductive PyVal where
  | bool : Bool → PyVal
  | int : Int → PyVal
  | real : List Nat → PyVal
  deriving DecidableEq, Repr

/-- The exceptions the decoder can raise: `IndexError` from `data[0]` on an
empty bytes object, `struct.error` from `struct.unpack(">f", b)` when `b`
has fewer than 4 bytes, and the explicit `ValueError` for unsupported types. -/
inductive PyErr where
  | indexError : PyErr
  | structError : PyErr
  | valueError : PyErr
  deriving DecidableEq, Repr

/-- Big-endian unsigned interpretation of a byte string, as in the unsigned
core of Python's `int.from_bytes(data, byteorder="big")`. -/
def fromBytesBE (bs : List Nat) : Nat :=
  bs.foldl (fun acc b => acc * 256 + b) 0

/-- Python's `int.from_bytes(bs, byteorder="big", signed=True)`:
the unsigned value, reduced into two's-complement range for `8 * bs.length`
bits. -/
def intFromBytesSignedBE (bs : List Nat) : Int :=
  let u := fromBytesBE bs
  if 2 * u < 2 ^ (8 * bs.length) then (u : Int)
  else (u : Int) - 2 ^ (8 * bs.length)

/-- Spec-side form: the big-endian two's-complement signed `w`-bit integer
with unsigned value `u`. -/
def toSigned2c (w : Nat) (u : Nat) : Int :=
  if u < 2 ^ (w - 1) then (u : Int) else (u : Int) - 2 ^ w

/-- Embedding of `_parse_data(data, data_type)`.
`data[0]` raises `IndexError` on empty input; the slices `data[0:2]` and
`data[0:4]` are `List.take` and never raise; `struct.unpack(">f", data[0:4])`
raises `struct.error` unless given exactly 4 bytes; an unknown `data_type`
raises `ValueError`. -/
def parse_data (data : List Nat) (data_type : String) : Except PyErr PyVal :=
  if data_type = "BOOL" then
    match data with
    | [] => .error .indexError
    | b :: _ => .ok (.bool (b != 0))
  else if data_type = "INT" then
    .ok (.int (intFromBytesSignedBE (data.take 2)))
  else if data_type = "DINT" then
    .ok (.int (intFromBytesSignedBE (data.take 4)))
  else if data_type = "REAL" then
    if (data.take 4).length = 4 then .ok (.real (data.take 4))
    else .error .structError
  else .error .valueError

/-- The four supported data types, as offered by the type combobox. -/
def supportedTypes : List String := ["BOOL", "INT", "DINT", "REAL"]

/-- Number of bytes `_parse_data` needs so that no branch raises a
length-related exception: `data[0]` needs 1 byte, `data[0:2]` reads at most
bytes 0-1, `data[0:4]` at most bytes 0-3, and `struct.unpack(">f", data[0:4])`
needs the slice to be full. -/
def bytesNeeded (data_type : String) : Nat :=
  if data_type = "BOOL" then 1
  else if data_type = "INT" then 2
  else if data_type = "DINT" then 4
  else if data_type = "REAL" then 4
  else 0

/-- The read-length table of `_poll`:
`{"BOOL": 1, "INT": 2, "DINT": 4, "REAL": 4}[data_type]`, `none` meaning the
`KeyError` a missing key raises. -/
def read_len (data_type : String) : Option Nat :=
  if data_type = "BOOL" then some 1
  else if data_type = "INT" then some 2
  else if data_type = "DINT" then some 4
  else if data_type = "REAL" then some 4
  else none

/-! ## Decimal rendering of Python ints and the column-name machinery

`_poll` builds column names with `f"DB{db}_{start}_{data_type}"`;
`_load_temp_data` takes them apart with `col.split("_")` and
`parts[0].replace("DB", "")`.  `intChars` models Python's `str` on an `int`
(decimal digits, `-` sign for negatives); `splitU` models `str.split("_")`;
`stripDB` models `str.replace("DB", "")` (left-to-right, non-overlapping). -/

/-- The decimal digit character for `d < 10`. -/
def digitChar (d : Nat) : Char := Char.ofNat (48 + d)

/-- The ten decimal digit characters. -/
def decDigits : List Char := ['0', '1', '2', '3', '4', '5', '6', '7', '8', '9']

/-- Decimal digits with explicit fuel (`n < fuel` is always enough), so the
function is structurally recursive and evaluates inside the kernel. -/
def natCharsF : Nat → Nat → List Char
  | 0, _ => []
  | fuel + 1, n =>
    if n < 10 then [digitChar n]
    else natCharsF fuel (n / 10) ++ [digitChar (n % 10)]

/-- Decimal digits of a natural number, most significant first, as in
Python's `str` on a nonnegative `int`. -/
def natChars (n : Nat) : List Char := natCharsF (n + 1) n

/-- Python's `str` on an `int`: a `-` sign for negatives, decimal digits. -/
def intChars (i : Int) : List Char :=
  if i < 0 then '-' :: natChars i.natAbs else natChars i.toNat

/-- Reading decimal digits back, as `int` would on a digit string. -/
def natVal (cs : List Char) : Nat :=
  cs.foldl (fun acc c => acc * 10 + (c.toNat - 48)) 0

/-- Reading a rendered int back, sign included. -/
def intVal (cs : List Char) : Int :=
  if cs.head? = some '-' then -(natVal cs.tail : Int) else (natVal cs : Int)

/-- Python's `col.split("_")`: maximal `'_'`-free runs, empty runs kept,
so the result is never empty and has one more part than there are
underscores. -/
def splitU : List Char → List (List Char)
  | [] => [[]]
  | c :: rest =>
    if c = '_' then [] :: splitU rest
    else
      match splitU rest with
      | [] => [[c]]
      | s :: ss => (c :: s) :: ss

/-- Python's `s.replace("DB", "")`: scan left to right, skip every
(non-overlapping) occurrence of `DB`, keep everything else. -/
def stripDB : List Char → List Char
  | [] => []
  | [c] => [c]
  | c1 :: c2 :: rest =>
    if c1 = 'D' ∧ c2 = 'B' then stripDB rest
    else c1 :: stripDB (c2 :: rest)

/-- The column name `f"DB{db}_{start}_{data_type}"` built by `_poll`. -/
def colName (db start : Int) (dtype : String) : String :=
  String.mk ("DB".data ++ intChars db ++ '_' :: intChars start ++ '_' :: dtype.data)

/-- The per-column work of `_load_temp_data`: skip `"timestamp"`, split the
name on `"_"`, and when that yields exactly 3 parts recreate a variable row
`(parts[0].replace("DB", ""), parts[1], parts[2])`; any other column is
ignored. -/
def loadCol (col : String) : Option (String × String × String) :=
  if col = "timestamp" then none
  else
    match splitU col.data with
    | [p0, p1, p2] => some (String.mk (stripDB p0), String.mk p1, String.mk p2)
    | _ => none

/-- The `for col in self.data_df.columns` loop of `_load_temp_data`: one
recreated variable row per column `loadCol` accepts, in column order. -/
def loadCols (cols : List String) : List (String × String × String) :=
  cols.filterMap loadCol

/-! ## The polling loop `_poll`

Timestamps are abstracted to naturals handed out by a time oracle; PLC reads
are an oracle `db → start → size → Option bytes` (`none` = `db_read` raised);
a row is a Python dict, i.e. an insertion-ordered association list. -/

/-- A cell of a row: the timestamp or a decoded value. -/
inductive Cell where
  | ts : Nat → Cell
  | val : PyVal → Cell
  deriving DecidableEq, Repr

/-- A row of the table: the Python dict built by one iteration of `_poll`. -/
abbrev Row := List (String × Cell)

/-- Python dict assignment `row[k] = v`: overwrite the existing entry in
place, otherwise append at the end. -/
def dictInsert (k : String) (v : Cell) : Row → Row
  | [] => [(k, v)]
  | (k', v') :: rest =>
    if k = k' then (k, v) :: rest else (k', v') :: dictInsert k v rest

/-- One entry of `read_settings`: `(db, start, data_type, read_len)`. -/
structure VarSetting where
  db : Int
  start : Int
  dtype : String
  size : Nat
  deriving DecidableEq, Repr

/-- The column name of a settings entry. -/
def settingCol (s : VarSetting) : String := colName s.db s.start s.dtype

/-- The `read_settings` list built at the top of `_poll`; `none` models the
`KeyError` of the read-length dict on an unsupported type (the thread dies
before the first iteration). -/
def mkSettings (active : List (Int × Int × String)) : Option (List VarSetting) :=
  active.mapM fun v => (read_len v.2.2).map fun n => ⟨v.1, v.2.1, v.2.2, n⟩

/-- The fresh row at the top of an iteration: `{"timestamp": datetime.now()}`. -/
def initRow (t : Nat) : Row := [("timestamp", Cell.ts t)]

/-- The body of the `for` loop over `read_settings`: for each entry perform
the blocking read, decode with `_parse_data`, and store the value in the row
dict under the entry's column name.  Returns the finished row (`none` when a
read or a conversion raised) and the log of blocking reads performed, one
`(db, start, read_len)` triple per `db_read` call. -/
def buildRow (read : Int → Int → Nat → Option (List Nat)) :
    List VarSetting → Row → List (Int × Int × Nat) →
      Option Row × List (Int × Int × Nat)
  | [], row, reads => (some row, reads)
  | s :: rest, row, reads =>
    match read s.db s.start s.size with
    | none => (none, reads ++ [(s.db, s.start, s.size)])
    | some raw =>
      match parse_data raw s.dtype with
      | .error _ => (none, reads ++ [(s.db, s.start, s.size)])
      | .ok v =>
          buildRow read rest (dictInsert (settingCol s) (Cell.val v) row)
            (reads ++ [(s.db, s.start, s.size)])

/-- Reference (spec-side) form of one iteration's row: one decoded cell per
settings entry, in order, prefixed by the timestamp field. -/
def specCols (read : Int → Int → Nat → Option (List Nat)) :
    List VarSetting → Option (List (String × Cell))
  | [] => some []
  | s :: rest =>
    (read s.db s.start s.size).bind fun raw =>
      (parse_data raw s.dtype).toOption.bind fun v =>
        (specCols read rest).map fun cs => (settingCol s, Cell.val v) :: cs

/-- Reference row: `{"timestamp": t}` followed by one column per variable. -/
def buildRowSpec (read : Int → Int → Nat → Option (List Nat))
    (settings : List VarSetting) (t : Nat) : Option Row :=
  (specCols read settings).map fun cs => ("timestamp", Cell.ts t) :: cs

/-- A line of the temp CSV file: the header written on creation, or one
data row. -/
inductive CsvLine where
  | header : List String → CsvLine
  | data : Row → CsvLine
  deriving DecidableEq, Repr

/-- The temp CSV file: `none` while it does not exist. -/
abbrev TempFile := Option (List CsvLine)

/-- `_append_temp_file`: `header = not os.path.exists(temp_file)`, then
`df_row.to_csv(temp_file, mode="a", index=False, header=header)` — creating
the file writes the column names first, appending to an existing file writes
only the data row. -/
def append_temp_file (file : TempFile) (row : Row) : TempFile :=
  match file with
  | none => some [CsvLine.header (row.map Prod.fst), CsvLine.data row]
  | some ls => some (ls ++ [CsvLine.data row])

/-- The mutable state `_poll` touches. -/
structure PollState where
  polling : Bool
  data_df : List Row
  temp_file : TempFile
  dialogs : List String
  deriving DecidableEq, Repr

/-- The error dialog `messagebox.showerror("Read error", ...)` shows. -/
def readErrorDialog : String := "Read error"

/-- One iteration of the `while self.polling` body: build the row; on
success concat it to `data_df` and append it to the temp file (the plot
update touches no state we track); on an exception set `polling = False`,
show the error dialog and `break` (second component = the `break` flag). -/
def pollIter (read : Int → Int → Nat → Option (List Nat))
    (settings : List VarSetting) (t : Nat) (st : PollState) : PollState × Bool :=
  match (buildRow read settings (initRow t) []).1 with
  | some row =>
      ({ st with data_df := st.data_df ++ [row],
                 temp_file := append_temp_file st.temp_file row }, false)
  | none =>
      ({ st with polling := false,
                 dialogs := st.dialogs ++ [readErrorDialog] }, true)

/-- The `while self.polling` loop.  `stop k` models `stop_polling` having set
`self.polling = False` from the GUI thread before the `k`-th condition check;
`times k` is the `datetime.now()` of iteration `k`; `fuel` bounds how many
iterations we observe; the final list collects the `time.sleep(interval)`
durations, one per completed iteration. -/
def pollLoopAux (settings : List VarSetting) (interval : ℚ)
    (read : Nat → Int → Int → Nat → Option (List Nat)) (stop : Nat → Bool)
    (times : Nat → Nat) :
    Nat → Nat → PollState → List ℚ → PollState × List ℚ
  | 0, _, st, sleeps => (st, sleeps)
  | fuel + 1, k, st, sleeps =>
    let st1 := if stop k then { st with polling := false } else st
    if st1.polling then
      let r := pollIter (read k) settings (times k) st1
      if r.2 then (r.1, sleeps)
      else pollLoopAux settings interval read stop times fuel (k + 1) r.1
        (sleeps ++ [interval])
    else (st1, sleeps)

/-- `_poll` itself: `interval = float(self.interval_var.get())` is read once,
before the loop; then `read_settings` is built (a `KeyError` on an
unsupported type kills the thread: `none`); then the loop runs.
`pf` models Python's `float` parser, `isched k` the contents of the interval
field at time `k` — the source reads it only at time `0`. -/
def pollRun (pf : String → ℚ) (isched : Nat → String)
    (active : List (Int × Int × String))
    (read : Nat → Int → Int → Nat → Option (List Nat)) (stop : Nat → Bool)
    (times : Nat → Nat) (fuel : Nat) (st : PollState) :
    Option (PollState × List ℚ) :=
  let interval := pf (isched 0)
  (mkSettings active).map fun settings =>
    pollLoopAux settings interval read stop times fuel 0 st []

/-! ## The GUI-level transitions: start / resume / export -/

/-- The state the `start_polling` / `resume_polling` handlers touch:
whether `self.client` is set, the polling flag, the variable rows (db,
start, type as entry strings), the active-variable list, and the warning
dialogs shown. -/
structure GuiState where
  client : Bool
  polling : Bool
  variable_rows : List (String × String × String)
  active_vars : List (Int × Int × String)
  warnings : List String
  deriving DecidableEq, Repr

/-- The `for row in self.variable_rows` loop of `start_polling`: parse db
and start with `int(...)` (`pInt` models Python's `int`; `none` = raised
`ValueError`) and append to the accumulator.  Returns the built list and
whether the loop finished without an exception. -/
def parseActive (pInt : String → Option Int) :
    List (String × String × String) → List (Int × Int × String) →
      List (Int × Int × String) × Bool
  | [], acc => (acc, true)
  | (db, s, t) :: rest, acc =>
    match pInt db with
    | none => (acc, false)
    | some d =>
      match pInt s with
      | none => (acc, false)
      | some s' => parseActive pInt rest (acc ++ [(d, s', t)])

/-- `start_polling`: warn and return when not connected; return when already
polling; otherwise rebuild `active_vars` from the variable rows, set the
polling flag and spawn the polling thread (second component = a thread was
spawned).  An `int(...)` exception leaves `active_vars` partially rebuilt,
the flag untouched and spawns nothing. -/
def start_polling (pInt : String → Option Int) (st : GuiState) :
    GuiState × Bool :=
  if st.client = false then
    ({ st with warnings := st.warnings ++ ["Not connected"] }, false)
  else if st.polling then (st, false)
  else
    let r := parseActive pInt st.variable_rows []
    if r.2 then ({ st with active_vars := r.1, polling := true }, true)
    else ({ st with active_vars := r.1 }, false)

/-- `resume_polling`: warn and return when not connected; return when
already polling; fall back to `start_polling` when no active variables are
kept; otherwise set the flag and spawn the polling thread. -/
def resume_polling (pInt : String → Option Int) (st : GuiState) :
    GuiState × Bool :=
  if st.client = false then
    ({ st with warnings := st.warnings ++ ["Not connected"] }, false)
  else if st.polling then (st, false)
  else if st.active_vars = [] then start_polling pInt st
  else ({ st with polling := true }, true)

/-- Outcome of `export_excel`: the (unchanged) table, which dialogs were
shown, and the file written, if any, with its full contents (no index
column — `to_excel(..., index=False)`). -/
structure ExportOutcome where
  data_df : List Row
  warned : Bool
  errored : Bool
  info : Bool
  written : Option (String × List Row)
  deriving DecidableEq, Repr

/-- `export_excel`: warn and return on an empty table; ask for a file path
(`file_path` models the dialog's answer, `""` = cancelled, falsy); on a
path, write the whole table (`openpyxlOk = false` models the `ImportError`
branch: error dialog, nothing written). -/
def export_excel (df : List Row) (file_path : String) (openpyxlOk : Bool) :
    ExportOutcome :=
  if df = [] then ⟨df, true, false, false, none⟩
  else if file_path = "" then ⟨df, false, false, false, none⟩
  else if openpyxlOk then ⟨df, false, false, true, some (file_path, df)⟩
  else ⟨df, false, true, false, none⟩

lemma fromBytesBE_two (b0 b1 : Nat) : fromBytesBE [b0, b1] = b0 * 256 + b1 := by
  simp [fromBytesBE]

lemma fromBytesBE_four (b0 b1 b2 b3 : Nat) :
    fromBytesBE [b0, b1, b2, b3] = ((b0 * 256 + b1) * 256 + b2) * 256 + b3 := by
  simp [fromBytesBE]

lemma intFromBytesSignedBE_two (b0 b1 : Nat) :
    intFromBytesSignedBE [b0, b1] = toSigned2c 16 (fromBytesBE [b0, b1]) := by
  unfold intFromBytesSignedBE toSigned2c
  rw [fromBytesBE_two]
  norm_num
  split_ifs <;> omega

lemma intFromBytesSignedBE_four (b0 b1 b2 b3 : Nat) :
    intFromBytesSignedBE [b0, b1, b2, b3] = toSigned2c 32 (fromBytesBE [b0, b1, b2, b3]) := by
  unfold intFromBytesSignedBE toSigned2c
  rw [fromBytesBE_four]
  norm_num
  split_ifs <;> omega

/-- **C1.** `_parse_data` decodes, for any byte string with enough bytes:
`"BOOL"` to the truth value of byte 0 (true iff nonzero); `"INT"` to the
big-endian two's-complement signed 16-bit integer of bytes 0-1, a value in
`[-32768, 32767]`; `"DINT"` to the big-endian two's-complement signed 32-bit
integer of bytes 0-3, a value in `[-2^31, 2^31 - 1]`. -/
theorem C1_parse_data_decoder (b0 b1 b2 b3 : Nat) (tl : List Nat)
    (h0 : b0 < 256) (h1 : b1 < 256) (h2 : b2 < 256) (h3 : b3 < 256) :
    parse_data (b0 :: tl) "BOOL" = .ok (.bool (b0 != 0)) ∧
    parse_data (b0 :: b1 :: tl) "INT" =
      .ok (.int (toSigned2c 16 (fromBytesBE [b0, b1]))) ∧
    -32768 ≤ toSigned2c 16 (fromBytesBE [b0, b1]) ∧
    toSigned2c 16 (fromBytesBE [b0, b1]) ≤ 32767 ∧
    parse_data (b0 :: b1 :: b2 :: b3 :: tl) "DINT" =
      .ok (.int (toSigned2c 32 (fromBytesBE [b0, b1, b2, b3]))) ∧
    -(2 ^ 31) ≤ toSigned2c 32 (fromBytesBE [b0, b1, b2, b3]) ∧
    toSigned2c 32 (fromBytesBE [b0, b1, b2, b3]) ≤ 2 ^ 31 - 1 := by
  refine ⟨by simp [parse_data], ?_, ?_, ?_, ?_, ?_, ?_⟩
  · simp [parse_data, intFromBytesSignedBE_two]
  · rw [fromBytesBE_two]; unfold toSigned2c; norm_num; split_ifs <;> omega
  · rw [fromBytesBE_two]; unfold toSigned2c; norm_num; split_ifs <;> omega
  · simp [parse_data, intFromBytesSignedBE_four]
  · rw [fromBytesBE_four]; unfold toSigned2c; norm_num; split_ifs <;> omega
  · rw [fromBytesBE_four]; unfold toSigned2c; norm_num; split_ifs <;> omega

theorem C1_parse_data_decoder_witness :
    parse_data ((200 : Nat) :: ([1, 2, 3] : List Nat)) "BOOL" = .ok (.bool ((200 : Nat) != 0)) ∧
    parse_data ((200 : Nat) :: (1 : Nat) :: ([2, 3] : List Nat)) "INT" =
      .ok (.int (toSigned2c 16 (fromBytesBE [200, 1]))) ∧
    -32768 ≤ toSigned2c 16 (fromBytesBE [200, 1]) ∧
    toSigned2c 16 (fromBytesBE [200, 1]) ≤ 32767 ∧
    parse_data ((200 : Nat) :: (1 : Nat) :: (2 : Nat) :: (3 : Nat) :: ([2, 3] : List Nat)) "DINT" =
      .ok (.int (toSigned2c 32 (fromBytesBE [200, 1, 2, 3]))) ∧
    -(2 ^ 31) ≤ toSigned2c 32 (fromBytesBE [200, 1, 2, 3]) ∧
    toSigned2c 32 (fromBytesBE [200, 1, 2, 3]) ≤ 2 ^ 31 - 1 :=
  C1_parse_data_decoder 200 1 2 3 [2, 3] (by decide) (by decide) (by decide) (by decide)

/-- **C9.** On byte strings of sufficient length, `_parse_data` raises
`ValueError` exactly for a `data_type` outside {BOOL, INT, DINT, REAL}; for
those four it returns a value and raises nothing. -/
theorem C9_parse_data_valueError_iff (data : List Nat) (dt : String)
    (hlen : bytesNeeded dt ≤ data.length) :
    (parse_data data dt = .error .valueError ↔ dt ∉ supportedTypes) ∧
    (dt ∈ supportedTypes → ∃ v, parse_data data dt = .ok v) := by
  by_cases hB : dt = "BOOL"
  · subst hB
    simp only [bytesNeeded, if_pos rfl] at hlen
    match data, hlen with
    | b :: tl, _ => simp [parse_data, supportedTypes]
  · by_cases hI : dt = "INT"
    · subst hI; simp [parse_data, supportedTypes]
    · by_cases hD : dt = "DINT"
      · subst hD; simp [parse_data, supportedTypes]
      · by_cases hR : dt = "REAL"
        · subst hR
          simp [bytesNeeded] at hlen
          have h4 : (data.take 4).length = 4 := by
            simp [List.length_take]; omega
          simp [parse_data, h4, supportedTypes]
        · simp [parse_data, hB, hI, hD, hR, supportedTypes]

theorem C9_parse_data_valueError_iff_witness :
    (parse_data [7, 7, 7, 7] "WORD" = .error .valueError ↔ "WORD" ∉ supportedTypes) ∧
    ("WORD" ∈ supportedTypes → ∃ v, parse_data [7, 7, 7, 7] "WORD" = .ok v) :=
  C9_parse_data_valueError_iff [7, 7, 7, 7] "WORD" (by decide)

/-- **C10.** The read length `_poll` requests per data type (BOOL 1, INT 2,
DINT 4, REAL 4) is at least the number of bytes `_parse_data` accesses for
that type, so on a read result of exactly the requested length the decoder
succeeds and never indexes past the end. -/
theorem C10_read_len_covers_parse (dt : String) (data : List Nat) (n : Nat)
    (hdt : dt ∈ supportedTypes) (hrl : read_len dt = some n)
    (hdata : data.length = n) :
    bytesNeeded dt ≤ n ∧ ∃ v, parse_data data dt = .ok v := by
  simp only [supportedTypes, List.mem_cons, List.not_mem_nil, or_false] at hdt
  rcases hdt with rfl | rfl | rfl | rfl
  · simp [read_len] at hrl
    subst hrl
    match data, hdata with
    | b :: tl, hdata =>
      exact ⟨by simp [bytesNeeded], ⟨.bool (b != 0), by simp [parse_data]⟩⟩
  · simp [read_len] at hrl
    subst hrl
    exact ⟨by simp [bytesNeeded], ⟨.int (intFromBytesSignedBE (data.take 2)),
      by simp [parse_data]⟩⟩
  · simp [read_len] at hrl
    subst hrl
    exact ⟨by simp [bytesNeeded], ⟨.int (intFromBytesSignedBE (data.take 4)),
      by simp [parse_data]⟩⟩
  · simp [read_len] at hrl
    subst hrl
    have h4 : (data.take 4).length = 4 := by
      simp [List.length_take]; omega
    exact ⟨by simp [bytesNeeded], ⟨.real (data.take 4), by simp [parse_data, h4]⟩⟩

theorem C10_read_len_covers_parse_witness :
    bytesNeeded "REAL" ≤ 4 ∧ ∃ v, parse_data [64, 73, 15, 219] "REAL" = .ok v :=
  C10_read_len_covers_parse "REAL" [64, 73, 15, 219] 4 (by decide) (by decide) (by decide)


/-- **C5.** `export_excel` writes the entire accumulated table (every row,
no index) to the chosen file; an empty table gives a warning and no file, a
cancelled dialog gives no file, and the accumulated table is unchanged in
every case. -/
theorem C5_export_excel (df : List Row) (path : String) (ok : Bool) :
    (export_excel df path ok).data_df = df ∧
    (df = [] → export_excel df path ok = ⟨df, true, false, false, none⟩) ∧
    (path = "" → (export_excel df path ok).written = none) ∧
    (df ≠ [] → path ≠ "" → ok = true →
      export_excel df path ok = ⟨df, false, false, true, some (path, df)⟩) := by
  unfold export_excel
  split_ifs <;> simp_all

theorem C5_export_excel_witness :
    export_excel [[("timestamp", Cell.ts 0)]] "out.xlsx" true =
      ⟨[[("timestamp", Cell.ts 0)]], false, false, true,
        some ("out.xlsx", [[("timestamp", Cell.ts 0)]])⟩ :=
  (C5_export_excel [[("timestamp", Cell.ts 0)]] "out.xlsx" true).2.2.2
    (by simp) (by simp) rfl

/-- **C7.** With the polling flag up, `start_polling` and `resume_polling`
spawn no thread and leave the active-variable list and the flag untouched;
and either handler spawns a thread only from a state with the flag down and
a client connected — so at most one polling loop runs at a time. -/
theorem C7_single_producer (pInt : String → Option Int) (st : GuiState)
    (hp : st.polling = true) :
    (start_polling pInt st).2 = false ∧
    (start_polling pInt st).1.active_vars = st.active_vars ∧
    (start_polling pInt st).1.polling = st.polling ∧
    (resume_polling pInt st).2 = false ∧
    (resume_polling pInt st).1.active_vars = st.active_vars ∧
    (resume_polling pInt st).1.polling = st.polling ∧
    (∀ s : GuiState, (start_polling pInt s).2 = true →
      s.polling = false ∧ s.client = true) ∧
    (∀ s : GuiState, (resume_polling pInt s).2 = true →
      s.polling = false ∧ s.client = true) := by
  have hstart : ∀ s : GuiState, (start_polling pInt s).2 = true →
      s.polling = false ∧ s.client = true := by
    intro s h
    unfold start_polling at h
    by_cases h1 : s.client = false
    · simp [h1] at h
    · rw [if_neg h1] at h
      by_cases h2 : s.polling = true
      · rw [if_pos h2] at h; simp at h
      · rw [if_neg h2] at h
        exact ⟨by simpa using h2, by simpa using h1⟩
  have hresume : ∀ s : GuiState, (resume_polling pInt s).2 = true →
      s.polling = false ∧ s.client = true := by
    intro s h
    unfold resume_polling at h
    by_cases h1 : s.client = false
    · simp [h1] at h
    · rw [if_neg h1] at h
      by_cases h2 : s.polling = true
      · rw [if_pos h2] at h; simp at h
      · rw [if_neg h2] at h
        by_cases h3 : s.active_vars = []
        · rw [if_pos h3] at h
          exact hstart s h
        · exact ⟨by simpa using h2, by simpa using h1⟩
  refine ⟨?_, ?_, ?_, ?_, ?_, ?_, hstart, hresume⟩ <;>
    by_cases hc : st.client = false <;>
      simp [start_polling, resume_polling, hc, hp]

/-- **C3.** A read or conversion exception in an iteration makes the loop
drop the polling flag, show the error dialog and terminate on the spot: the
partial row is appended neither to the table nor to the temp file, earlier
rows are untouched, and no further iteration (and no further sleep) runs. -/
theorem C3_read_error_stops (settings : List VarSetting) (interval : ℚ)
    (read : Nat → Int → Int → Nat → Option (List Nat)) (stop : Nat → Bool)
    (times : Nat → Nat) (fuel k : Nat) (st : PollState) (sleeps : List ℚ)
    (hp : st.polling = true) (hs : stop k = false)
    (hfail : (buildRow (read k) settings (initRow (times k)) []).1 = none) :
    pollLoopAux settings interval read stop times (fuel + 1) k st sleeps =
      ({ st with polling := false,
                 dialogs := st.dialogs ++ [readErrorDialog] }, sleeps) ∧
    (pollLoopAux settings interval read stop times (fuel + 1) k st sleeps).1.data_df =
      st.data_df ∧
    (pollLoopAux settings interval read stop times (fuel + 1) k st sleeps).1.temp_file =
      st.temp_file ∧
    (pollLoopAux settings interval read stop times (fuel + 1) k st sleeps).1.polling =
      false ∧
    (pollLoopAux settings interval read stop times (fuel + 1) k st sleeps).2 =
      sleeps := by
  have heq : pollLoopAux settings interval read stop times (fuel + 1) k st sleeps =
      ({ st with polling := false,
                 dialogs := st.dialogs ++ [readErrorDialog] }, sleeps) := by
    simp [pollLoopAux, hs, hp, pollIter, hfail]
  exact ⟨heq, by rw [heq], by rw [heq], by rw [heq], by rw [heq]⟩

theorem C3_read_error_stops_witness :
    pollLoopAux [⟨1, 0, "BOOL", 1⟩] 1 (fun _ _ _ _ => none) (fun _ => false)
        (fun _ => 0) 5 0 ⟨true, [], none, []⟩ [] =
      ({ polling := false, data_df := [], temp_file := none,
         dialogs := [readErrorDialog] }, []) ∧
    (pollLoopAux [⟨1, 0, "BOOL", 1⟩] 1 (fun _ _ _ _ => none) (fun _ => false)
        (fun _ => 0) 5 0 ⟨true, [], none, []⟩ []).1.data_df = [] ∧
    (pollLoopAux [⟨1, 0, "BOOL", 1⟩] 1 (fun _ _ _ _ => none) (fun _ => false)
        (fun _ => 0) 5 0 ⟨true, [], none, []⟩ []).1.temp_file = none ∧
    (pollLoopAux [⟨1, 0, "BOOL", 1⟩] 1 (fun _ _ _ _ => none) (fun _ => false)
        (fun _ => 0) 5 0 ⟨true, [], none, []⟩ []).1.polling = false ∧
    (pollLoopAux [⟨1, 0, "BOOL", 1⟩] 1 (fun _ _ _ _ => none) (fun _ => false)
        (fun _ => 0) 5 0 ⟨true, [], none, []⟩ []).2 = [] :=
  C3_read_error_stops [⟨1, 0, "BOOL", 1⟩] 1 (fun _ _ _ _ => none)
    (fun _ => false) (fun _ => 0) 4 0 ⟨true, [], none, []⟩ [] rfl rfl rfl

lemma pollLoopAux_sleeps_mem (settings : List VarSetting) (interval : ℚ)
    (read : Nat → Int → Int → Nat → Option (List Nat)) (stop : Nat → Bool)
    (times : Nat → Nat) :
    ∀ (fuel k : Nat) (st : PollState) (sleeps : List ℚ) (x : ℚ),
      x ∈ (pollLoopAux settings interval read stop times fuel k st sleeps).2 →
      x ∈ sleeps ∨ x = interval := by
  intro fuel
  induction fuel with
  | zero =>
    intro k st sleeps x hx
    simp [pollLoopAux] at hx
    exact .inl hx
  | succ n ih =>
    intro k st sleeps x hx
    simp only [pollLoopAux] at hx
    set st1 := if stop k = true then { st with polling := false } else st with hst1
    by_cases hp : st1.polling = true
    · rw [if_pos hp] at hx
      by_cases hb : (pollIter (read k) settings (times k) st1).2 = true
      · rw [if_pos hb] at hx
        exact .inl hx
      · rw [if_neg hb] at hx
        rcases ih (k + 1) (pollIter (read k) settings (times k) st1).1
            (sleeps ++ [interval]) x hx with h | h
        · rcases List.mem_append.mp h with h' | h'
          · exact .inl h'
          · right
            simpa using h'
        · exact .inr h
    · rw [if_neg hp] at hx
      exact .inl hx

lemma foldl_append_temp_some (rows : List Row) :
    ∀ ls : List CsvLine,
      rows.foldl append_temp_file (some ls) =
        some (ls ++ rows.map CsvLine.data) := by
  induction rows with
  | nil => intro ls; simp
  | cons r rs ih =>
    intro ls
    rw [List.foldl_cons]
    show rs.foldl append_temp_file (some (ls ++ [CsvLine.data r])) = _
    rw [ih]
    simp

lemma pollLoopAux_new_rows (settings : List VarSetting) (interval : ℚ)
    (read : Nat → Int → Int → Nat → Option (List Nat)) (stop : Nat → Bool)
    (times : Nat → Nat) :
    ∀ (fuel k : Nat) (st : PollState) (sleeps : List ℚ),
      ∃ rows : List Row,
        (pollLoopAux settings interval read stop times fuel k st sleeps).1.data_df =
          st.data_df ++ rows ∧
        (pollLoopAux settings interval read stop times fuel k st sleeps).1.temp_file =
          rows.foldl append_temp_file st.temp_file := by
  intro fuel
  induction fuel with
  | zero =>
    intro k st sleeps
    exact ⟨[], by simp [pollLoopAux], by simp [pollLoopAux]⟩
  | succ n ih =>
    intro k st sleeps
    simp only [pollLoopAux]
    set st1 := if stop k = true then { st with polling := false } else st with hst1
    have hdf : st1.data_df = st.data_df := by
      rw [hst1]; split <;> rfl
    have htf : st1.temp_file = st.temp_file := by
      rw [hst1]; split <;> rfl
    by_cases hp : st1.polling = true
    · rw [if_pos hp]
      cases hb : (buildRow (read k) settings (initRow (times k)) []).1 with
      | none =>
        have hiter : pollIter (read k) settings (times k) st1 =
            ({ st1 with polling := false,
                        dialogs := st1.dialogs ++ [readErrorDialog] }, true) := by
          simp [pollIter, hb]
        rw [hiter]
        exact ⟨[], by simpa using hdf, by simpa using htf⟩
      | some row =>
        have hiter : pollIter (read k) settings (times k) st1 =
            ({ st1 with data_df := st1.data_df ++ [row],
                        temp_file := append_temp_file st1.temp_file row }, false) := by
          simp [pollIter, hb]
        rw [hiter]
        simp only [Bool.false_eq_true, if_false]
        obtain ⟨rows', h1, h2⟩ := ih (k + 1)
          ({ st1 with data_df := st1.data_df ++ [row],
                      temp_file := append_temp_file st1.temp_file row })
          (sleeps ++ [interval])
        refine ⟨row :: rows', ?_, ?_⟩
        · rw [h1]; simp [hdf]
        · rw [h2]; simp [htf]
    · rw [if_neg hp]
      exact ⟨[], by simpa using hdf, by simpa using htf⟩

/-- **C4.** A successful iteration appends the very row it concats to the
in-memory table to the temp CSV file as well; over any run the same list of
rows goes to both, an existing file gains exactly those data lines, and a
not-yet-existing file is created with exactly one header line (the row's
column names) followed by those data lines — so after `n` successful
iterations the flat file holds all `n` rows. -/
theorem C4_temp_file_mirrors_table (settings : List VarSetting) (interval : ℚ)
    (read : Nat → Int → Int → Nat → Option (List Nat)) (stop : Nat → Bool)
    (times : Nat → Nat) (fuel k : Nat) (st : PollState) (sleeps : List ℚ) :
    (∀ (read1 : Int → Int → Nat → Option (List Nat)) (t : Nat)
        (st1 : PollState) (row : Row),
      (buildRow read1 settings (initRow t) []).1 = some row →
      pollIter read1 settings t st1 =
        ({ st1 with data_df := st1.data_df ++ [row],
                    temp_file := append_temp_file st1.temp_file row }, false)) ∧
    ∃ rows : List Row,
      (pollLoopAux settings interval read stop times fuel k st sleeps).1.data_df =
        st.data_df ++ rows ∧
      (pollLoopAux settings interval read stop times fuel k st sleeps).1.temp_file =
        rows.foldl append_temp_file st.temp_file ∧
      (∀ ls : List CsvLine, st.temp_file = some ls →
        (pollLoopAux settings interval read stop times fuel k st sleeps).1.temp_file =
          some (ls ++ rows.map CsvLine.data)) ∧
      (st.temp_file = none →
        (rows = [] ∧
          (pollLoopAux settings interval read stop times fuel k st sleeps).1.temp_file =
            none) ∨
        ∃ r rs, rows = r :: rs ∧
          (pollLoopAux settings interval read stop times fuel k st sleeps).1.temp_file =
            some (CsvLine.header (r.map Prod.fst) :: rows.map CsvLine.data)) := by
  refine ⟨fun read1 t st1 row h => by simp [pollIter, h], ?_⟩
  obtain ⟨rows, h1, h2⟩ :=
    pollLoopAux_new_rows settings interval read stop times fuel k st sleeps
  refine ⟨rows, h1, h2, ?_, ?_⟩
  · intro ls hls
    rw [h2, hls, foldl_append_temp_some]
  · intro hnone
    cases rows with
    | nil => exact .inl ⟨rfl, by rw [h2, hnone]; simp⟩
    | cons r rs =>
      refine .inr ⟨r, rs, rfl, ?_⟩
      rw [h2, hnone, List.foldl_cons]
      show rs.foldl append_temp_file
          (some [CsvLine.header (r.map Prod.fst), CsvLine.data r]) = _
      rw [foldl_append_temp_some]
      simp

theorem C4_temp_file_mirrors_table_witness :
    (∀ (read1 : Int → Int → Nat → Option (List Nat)) (t : Nat)
        (st1 : PollState) (row : Row),
      (buildRow read1 [⟨1, 0, "BOOL", 1⟩] (initRow t) []).1 = some row →
      pollIter read1 [⟨1, 0, "BOOL", 1⟩] t st1 =
        ({ st1 with data_df := st1.data_df ++ [row],
                    temp_file := append_temp_file st1.temp_file row }, false)) ∧
    ∃ rows : List Row,
      (pollLoopAux [⟨1, 0, "BOOL", 1⟩] 1 (fun _ _ _ _ => some [1])
          (fun k => 2 ≤ k) (fun k => k) 9 0 ⟨true, [], none, []⟩ []).1.data_df =
        [] ++ rows ∧
      (pollLoopAux [⟨1, 0, "BOOL", 1⟩] 1 (fun _ _ _ _ => some [1])
          (fun k => 2 ≤ k) (fun k => k) 9 0 ⟨true, [], none, []⟩ []).1.temp_file =
        rows.foldl append_temp_file none ∧
      (∀ ls : List CsvLine, (none : TempFile) = some ls →
        (pollLoopAux [⟨1, 0, "BOOL", 1⟩] 1 (fun _ _ _ _ => some [1])
            (fun k => 2 ≤ k) (fun k => k) 9 0 ⟨true, [], none, []⟩ []).1.temp_file =
          some (ls ++ rows.map CsvLine.data)) ∧
      ((none : TempFile) = none →
        (rows = [] ∧
          (pollLoopAux [⟨1, 0, "BOOL", 1⟩] 1 (fun _ _ _ _ => some [1])
              (fun k => 2 ≤ k) (fun k => k) 9 0 ⟨true, [], none, []⟩ []).1.temp_file =
            none) ∨
        ∃ r rs, rows = r :: rs ∧
          (pollLoopAux [⟨1, 0, "BOOL", 1⟩] 1 (fun _ _ _ _ => some [1])
              (fun k => 2 ≤ k) (fun k => k) 9 0 ⟨true, [], none, []⟩ []).1.temp_file =
            some (CsvLine.header (r.map Prod.fst) :: rows.map CsvLine.data)) :=
  C4_temp_file_mirrors_table [⟨1, 0, "BOOL", 1⟩] 1 (fun _ _ _ _ => some [1])
    (fun k => 2 ≤ k) (fun k => k) 9 0 ⟨true, [], none, []⟩ []

/-- **C6.** The polling loop reads the interval field exactly once, before
the first iteration: every sleep of a run equals the value parsed from the
field's contents at entry, and two runs whose interval-field histories agree
at entry are identical — later edits to the field have no effect. -/
theorem C6_interval_read_once (pf : String → ℚ) (isched isched' : Nat → String)
    (active : List (Int × Int × String))
    (read : Nat → Int → Int → Nat → Option (List Nat)) (stop : Nat → Bool)
    (times : Nat → Nat) (fuel : Nat) (st : PollState)
    (h0 : isched' 0 = isched 0) :
    pollRun pf isched active read stop times fuel st =
      pollRun pf isched' active read stop times fuel st ∧
    ∀ out, pollRun pf isched active read stop times fuel st = some out →
      ∀ x ∈ out.2, x = pf (isched 0) := by
  constructor
  · unfold pollRun
    rw [h0]
  · intro out hout x hx
    unfold pollRun at hout
    cases hms : mkSettings active with
    | none => rw [hms] at hout; simp at hout
    | some settings =>
      rw [hms] at hout
      have hout' : pollLoopAux settings (pf (isched 0)) read stop times
          fuel 0 st [] = out := by
        simpa using hout
      subst hout'
      rcases pollLoopAux_sleeps_mem settings (pf (isched 0)) read stop times
          fuel 0 st [] x hx with h | h
      · simp at h
      · exact h

theorem C6_interval_read_once_witness :
    pollRun (fun _ => 1) (fun _ => "1.0") [(1, 0, "BOOL")]
        (fun _ _ _ _ => some [1]) (fun _ => false) (fun k => k) 3
        ⟨true, [], none, []⟩ =
      pollRun (fun _ => 1) (fun k => if k = 0 then "1.0" else "7.5")
        [(1, 0, "BOOL")] (fun _ _ _ _ => some [1]) (fun _ => false)
        (fun k => k) 3 ⟨true, [], none, []⟩ ∧
    ∀ out, pollRun (fun _ => 1) (fun _ => "1.0") [(1, 0, "BOOL")]
        (fun _ _ _ _ => some [1]) (fun _ => false) (fun k => k) 3
        ⟨true, [], none, []⟩ = some out →
      ∀ x ∈ out.2, x = (fun (_ : String) => (1 : ℚ)) ((fun (_ : Nat) => "1.0") 0) :=
  C6_interval_read_once (fun _ => 1) (fun _ => "1.0")
    (fun k => if k = 0 then "1.0" else "7.5") [(1, 0, "BOOL")]
    (fun _ _ _ _ => some [1]) (fun _ => false) (fun k => k) 3
    ⟨true, [], none, []⟩ rfl

theorem C7_single_producer_witness :
    (start_polling (fun _ => some 1)
      ⟨true, true, [("1", "0", "REAL")], [], []⟩).2 = false ∧
    (start_polling (fun _ => some 1)
      ⟨true, true, [("1", "0", "REAL")], [], []⟩).1.active_vars = [] ∧
    (start_polling (fun _ => some 1)
      ⟨true, true, [("1", "0", "REAL")], [], []⟩).1.polling = true ∧
    (resume_polling (fun _ => some 1)
      ⟨true, true, [("1", "0", "REAL")], [], []⟩).2 = false ∧
    (resume_polling (fun _ => some 1)
      ⟨true, true, [("1", "0", "REAL")], [], []⟩).1.active_vars = [] ∧
    (resume_polling (fun _ => some 1)
      ⟨true, true, [("1", "0", "REAL")], [], []⟩).1.polling = true ∧
    (∀ s : GuiState, (start_polling (fun _ => some 1) s).2 = true →
      s.polling = false ∧ s.client = true) ∧
    (∀ s : GuiState, (resume_polling (fun _ => some 1) s).2 = true →
      s.polling = false ∧ s.client = true) :=
  C7_single_producer (fun _ => some 1)
    ⟨true, true, [("1", "0", "REAL")], [], []⟩ rfl

lemma natCharsF_eq : ∀ f1 f2 n : Nat, n < f1 → n < f2 →
    natCharsF f1 n = natCharsF f2 n := by
  intro f1
  induction f1 with
  | zero => intro f2 n h1 _; omega
  | succ f ih =>
    intro f2 n h1 h2
    cases f2 with
    | zero => omega
    | succ f2 =>
      simp only [natCharsF]
      by_cases h : n < 10
      · rw [if_pos h, if_pos h]
      · rw [if_neg h, if_neg h, ih f2 (n / 10) (by omega) (by omega)]

lemma natChars_unfold (n : Nat) :
    natChars n =
      if n < 10 then [digitChar n]
      else natChars (n / 10) ++ [digitChar (n % 10)] := by
  show natCharsF (n + 1) n = _
  simp only [natCharsF]
  by_cases h : n < 10
  · rw [if_pos h, if_pos h]
  · rw [if_neg h, if_neg h]
    have := natCharsF_eq n (n / 10 + 1) (n / 10) (by omega) (by omega)
    rw [this]
    rfl

lemma digitChar_mem (d : Nat) (h : d < 10) : digitChar d ∈ decDigits := by
  interval_cases d <;> decide

lemma natChars_mem_decDigits (n : Nat) : ∀ c ∈ natChars n, c ∈ decDigits := by
  induction n using Nat.strong_induction_on with
  | _ n ih =>
    rw [natChars_unfold]
    by_cases h : n < 10
    · rw [if_pos h]
      intro c hc
      have : c = digitChar n := by simpa using hc
      rw [this]
      exact digitChar_mem n h
    · rw [if_neg h]
      intro c hc
      rcases List.mem_append.mp hc with h' | h'
      · exact ih (n / 10) (by omega) c h'
      · have : c = digitChar (n % 10) := by simpa using h'
        rw [this]
        exact digitChar_mem _ (Nat.mod_lt _ (by omega))

lemma natChars_ne_nil (n : Nat) : natChars n ≠ [] := by
  rw [natChars_unfold]
  split <;> simp

lemma intChars_mem (i : Int) : ∀ c ∈ intChars i, c ∈ '-' :: decDigits := by
  unfold intChars
  split
  · intro c hc
    rcases List.mem_cons.mp hc with h | h
    · rw [h]; exact List.mem_cons_self _ _
    · exact List.mem_cons_of_mem _ (natChars_mem_decDigits _ c h)
  · intro c hc
    exact List.mem_cons_of_mem _ (natChars_mem_decDigits _ c hc)

lemma intChars_no_underscore (i : Int) : '_' ∉ intChars i := by
  intro h
  exact absurd (intChars_mem i '_' h) (by decide)

lemma intChars_no_D (i : Int) : 'D' ∉ intChars i := by
  intro h
  exact absurd (intChars_mem i 'D' h) (by decide)

lemma digitChar_toNat (d : Nat) (h : d < 10) : (digitChar d).toNat - 48 = d := by
  interval_cases d <;> decide

lemma natVal_go (n : Nat) : ∀ a : Nat,
    List.foldl (fun acc c => acc * 10 + (c.toNat - 48)) a (natChars n) =
      a * 10 ^ (natChars n).length + n := by
  induction n using Nat.strong_induction_on with
  | _ n ih =>
    intro a
    rw [natChars_unfold]
    by_cases h : n < 10
    · rw [if_pos h]
      simp only [List.foldl_cons, List.foldl_nil, List.length_singleton, pow_one,
        digitChar_toNat n h]
    · rw [if_neg h]
      rw [List.foldl_append, ih (n / 10) (by omega) a]
      simp only [List.foldl_cons, List.foldl_nil, List.length_append,
        List.length_singleton]
      rw [digitChar_toNat _ (Nat.mod_lt _ (by omega))]
      have hd : 10 * (n / 10) + n % 10 = n := Nat.div_add_mod n 10
      have hr : (a * 10 ^ (natChars (n / 10)).length + n / 10) * 10 + n % 10 =
          a * 10 ^ ((natChars (n / 10)).length + 1) + (10 * (n / 10) + n % 10) := by
        ring
      rw [hr, hd]

lemma natVal_natChars (n : Nat) : natVal (natChars n) = n := by
  have := natVal_go n 0
  simpa [natVal] using this

lemma intVal_intChars (i : Int) : intVal (intChars i) = i := by
  unfold intChars
  by_cases h : i < 0
  · rw [if_pos h]
    have h1 : intVal ('-' :: natChars i.natAbs) =
        -(natVal (natChars i.natAbs) : Int) := by
      simp [intVal]
    rw [h1, natVal_natChars]
    omega
  · rw [if_neg h]
    rcases hnc : natChars i.toNat with _ | ⟨c, rest⟩
    · exact absurd hnc (natChars_ne_nil _)
    · have hc : c ≠ '-' := by
        have hcd := natChars_mem_decDigits i.toNat c
          (by rw [hnc]; exact List.mem_cons_self _ _)
        intro he
        rw [he] at hcd
        exact absurd hcd (by decide)
      have h1 : intVal (c :: rest) = (natVal (c :: rest) : Int) := by
        simp [intVal, hc]
      rw [h1, ← hnc, natVal_natChars]
      omega

lemma splitU_no_sep : ∀ cs : List Char, '_' ∉ cs → splitU cs = [cs] := by
  intro cs
  induction cs with
  | nil => intro _; rfl
  | cons c rest ih =>
    intro h
    have hc : c ≠ '_' := fun he => h (he ▸ List.mem_cons_self _ _)
    simp only [splitU, if_neg hc]
    rw [ih (fun hm => h (List.mem_cons_of_mem _ hm))]

lemma splitU_append_sep : ∀ xs ys : List Char, '_' ∉ xs →
    splitU (xs ++ '_' :: ys) = xs :: splitU ys := by
  intro xs
  induction xs with
  | nil =>
    intro ys _
    show (if '_' = '_' then [] :: splitU ys
          else
            match splitU ys with
            | [] => [['_']]
            | s :: ss => ('_' :: s) :: ss) = [] :: splitU ys
    rw [if_pos rfl]
  | cons c rest ih =>
    intro ys h
    have hc : c ≠ '_' := fun he => h (he ▸ List.mem_cons_self _ _)
    have hr := ih ys (fun hm => h (List.mem_cons_of_mem _ hm))
    show (if c = '_' then [] :: splitU (rest ++ '_' :: ys)
          else
            match splitU (rest ++ '_' :: ys) with
            | [] => [[c]]
            | s :: ss => (c :: s) :: ss) = (c :: rest) :: splitU ys
    rw [if_neg hc, hr]

lemma stripDB_cons_ne (c : Char) (cs : List Char) (hc : c ≠ 'D') :
    stripDB (c :: cs) = c :: stripDB cs := by
  cases cs with
  | nil => rfl
  | cons c2 rest =>
    show stripDB (c :: c2 :: rest) = _
    simp only [stripDB]
    rw [if_neg (fun hand => hc hand.1)]

lemma stripDB_of_no_D : ∀ cs : List Char, 'D' ∉ cs → stripDB cs = cs := by
  intro cs
  induction cs with
  | nil => intro _; rfl
  | cons c rest ih =>
    intro h
    rw [stripDB_cons_ne c rest (fun he => h (he ▸ List.mem_cons_self _ _)),
      ih (fun hm => h (List.mem_cons_of_mem _ hm))]

lemma stripDB_DB (cs : List Char) (h : 'D' ∉ cs) :
    stripDB ('D' :: 'B' :: cs) = cs := by
  have h1 : stripDB ('D' :: 'B' :: cs) = stripDB cs := by
    simp [stripDB]
  rw [h1]
  exact stripDB_of_no_D cs h

lemma supported_no_underscore : ∀ dt ∈ supportedTypes, '_' ∉ dt.data := by
  decide

lemma colName_ne_timestamp (db start : Int) (dtype : String) :
    colName db start dtype ≠ "timestamp" := by
  intro h
  have hd : ('D' :: 'B' ::
        (intChars db ++ '_' :: intChars start ++ '_' :: dtype.data)) =
      ('t' :: "imestamp".data) := congrArg String.data h
  injection hd with h1 _
  exact absurd h1 (by decide)

lemma colName_data (db start : Int) (dtype : String) :
    (colName db start dtype).data =
      ('D' :: 'B' :: intChars db) ++
        '_' :: (intChars start ++ '_' :: dtype.data) := by
  have h0 : (colName db start dtype).data =
      (("DB".data ++ intChars db) ++ ('_' :: intChars start)) ++
        ('_' :: dtype.data) := rfl
  have hDB : "DB".data = ['D', 'B'] := rfl
  rw [h0, hDB]
  simp [List.append_assoc]

lemma splitU_colName (db start : Int) (dtype : String) (hus : '_' ∉ dtype.data) :
    splitU (colName db start dtype).data =
      ['D' :: 'B' :: intChars db, intChars start, dtype.data] := by
  have h1 : '_' ∉ 'D' :: 'B' :: intChars db := by
    intro hm
    rcases List.mem_cons.mp hm with h | hm'
    · exact absurd h (by decide)
    · rcases List.mem_cons.mp hm' with h | hm''
      · exact absurd h (by decide)
      · exact intChars_no_underscore db hm''
  rw [colName_data]
  rw [splitU_append_sep _ _ h1,
    splitU_append_sep _ _ (intChars_no_underscore start),
    splitU_no_sep _ hus]

lemma loadCol_colName (db start : Int) (dtype : String)
    (hdt : dtype ∈ supportedTypes) :
    loadCol (colName db start dtype) =
      some (String.mk (intChars db), String.mk (intChars start), dtype) := by
  unfold loadCol
  rw [if_neg (colName_ne_timestamp db start dtype)]
  rw [splitU_colName db start dtype (supported_no_underscore _ hdt)]
  show some (String.mk (stripDB ('D' :: 'B' :: intChars db)),
      String.mk (intChars start), String.mk dtype.data) = _
  rw [stripDB_DB _ (intChars_no_D db)]

lemma loadCols_map : ∀ vars : List (Int × Int × String),
    (∀ v ∈ vars, v.2.2 ∈ supportedTypes) →
    loadCols (vars.map fun v => colName v.1 v.2.1 v.2.2) =
      vars.map fun v =>
        (String.mk (intChars v.1), String.mk (intChars v.2.1), v.2.2) := by
  intro vars
  induction vars with
  | nil => intro _; rfl
  | cons v vs ih =>
    intro hvars
    unfold loadCols
    rw [List.map_cons, List.filterMap_cons_some
      (loadCol_colName v.1 v.2.1 v.2.2 (hvars v (List.mem_cons_self _ _)))]
    rw [List.map_cons]
    have hih := ih (fun w hw => hvars w (List.mem_cons_of_mem _ hw))
    unfold loadCols at hih
    rw [hih]

/-- **C8.** The column-name round trip: for every db, start and supported
data type, the name `DB{db}_{start}_{type}` built by `_poll` splits on `_`
into exactly three parts; stripping the `DB` prefix from the first recovers
the decimal rendering of db (and parsing the parts back yields db and start
themselves); and `_load_temp_data` applied to a temp-file header recreates
exactly the variable rows whose columns appear there, in order. -/
theorem C8_column_name_roundtrip (db start : Int) (dtype : String)
    (hdt : dtype ∈ supportedTypes) :
    splitU (colName db start dtype).data =
      ['D' :: 'B' :: intChars db, intChars start, dtype.data] ∧
    (splitU (colName db start dtype).data).length = 3 ∧
    stripDB ('D' :: 'B' :: intChars db) = intChars db ∧
    intVal (intChars db) = db ∧
    intVal (intChars start) = start ∧
    ∀ vars : List (Int × Int × String),
      (∀ v ∈ vars, v.2.2 ∈ supportedTypes) →
      loadCols ("timestamp" :: vars.map fun v => colName v.1 v.2.1 v.2.2) =
        vars.map fun v =>
          (String.mk (intChars v.1), String.mk (intChars v.2.1), v.2.2) := by
  have hus := supported_no_underscore dtype hdt
  have hsplit := splitU_colName db start dtype hus
  refine ⟨hsplit, by rw [hsplit]; rfl, stripDB_DB _ (intChars_no_D db),
    intVal_intChars db, intVal_intChars start, ?_⟩
  intro vars hvars
  unfold loadCols
  rw [List.filterMap_cons_none (show loadCol "timestamp" = none by simp [loadCol])]
  have hmap := loadCols_map vars hvars
  unfold loadCols at hmap
  rw [hmap]

theorem C8_column_name_roundtrip_witness :
    splitU (colName 12 3 "REAL").data =
      ['D' :: 'B' :: intChars 12, intChars 3, "REAL".data] ∧
    (splitU (colName 12 3 "REAL").data).length = 3 ∧
    stripDB ('D' :: 'B' :: intChars 12) = intChars 12 ∧
    intVal (intChars 12) = 12 ∧
    intVal (intChars 3) = 3 ∧
    ∀ vars : List (Int × Int × String),
      (∀ v ∈ vars, v.2.2 ∈ supportedTypes) →
      loadCols ("timestamp" :: vars.map fun v => colName v.1 v.2.1 v.2.2) =
        vars.map fun v =>
          (String.mk (intChars v.1), String.mk (intChars v.2.1), v.2.2) :=
  C8_column_name_roundtrip 12 3 "REAL" (by decide)

lemma dictInsert_fresh (k : String) (v : Cell) :
    ∀ row : Row, k ∉ row.map Prod.fst → dictInsert k v row = row ++ [(k, v)] := by
  intro row
  induction row with
  | nil => intro _; rfl
  | cons p rest ih =>
    obtain ⟨k', v'⟩ := p
    intro h
    have hk : k ≠ k' := fun he =>
      h (by rw [List.map_cons, he]; exact List.mem_cons_self _ _)
    simp only [dictInsert, if_neg hk]
    rw [ih (fun hm => h (by rw [List.map_cons]; exact List.mem_cons_of_mem _ hm))]
    rfl

lemma specCols_keys (read : Int → Int → Nat → Option (List Nat)) :
    ∀ (settings : List VarSetting) (cols : List (String × Cell)),
      specCols read settings = some cols →
      cols.map Prod.fst = settings.map settingCol := by
  intro settings
  induction settings with
  | nil =>
    intro cols h
    simp only [specCols, Option.some.injEq] at h
    rw [← h]
    rfl
  | cons s rest ih =>
    intro cols h
    simp only [specCols] at h
    cases hr : read s.db s.start s.size with
    | none => rw [hr] at h; simp at h
    | some raw =>
      rw [hr] at h
      simp only [Option.some_bind] at h
      cases hp : parse_data raw s.dtype with
      | error e => rw [hp] at h; simp [Except.toOption] at h
      | ok v =>
        rw [hp] at h
        simp only [Except.toOption, Option.some_bind] at h
        cases hrest : specCols read rest with
        | none => rw [hrest] at h; simp at h
        | some cs =>
          rw [hrest] at h
          simp only [Option.map_some', Option.some.injEq] at h
          rw [← h, List.map_cons, List.map_cons, ih cs hrest]

lemma buildRow_eq_specCols (read : Int → Int → Nat → Option (List Nat)) :
    ∀ (settings : List VarSetting) (row : Row) (reads : List (Int × Int × Nat)),
      (∀ s ∈ settings, settingCol s ∉ row.map Prod.fst) →
      (settings.map settingCol).Nodup →
      (buildRow read settings row reads).1 =
        (specCols read settings).map fun cs => row ++ cs := by
  intro settings
  induction settings with
  | nil => intro row reads _ _; simp [buildRow, specCols]
  | cons s rest ih =>
    intro row reads hfresh hnd
    have hnd1 : (settingCol s :: List.map settingCol rest).Nodup := by
      rw [List.map_cons] at hnd
      exact hnd
    have hnd0 := List.nodup_cons.mp hnd1
    simp only [buildRow, specCols]
    cases hr : read s.db s.start s.size with
    | none => simp
    | some raw =>
      dsimp only
      simp only [Option.some_bind]
      cases hp : parse_data raw s.dtype with
      | error e => simp [Except.toOption]
      | ok v =>
        dsimp only
        simp only [Except.toOption, Option.some_bind]
        rw [dictInsert_fresh _ _ row (hfresh s (List.mem_cons_self _ _))]
        rw [ih (row ++ [(settingCol s, Cell.val v)]) _ ?_ hnd0.2]
        · cases specCols read rest <;> simp
        · intro s' hs' hm
          rw [List.map_append] at hm
          rcases List.mem_append.mp hm with hm' | hm'
          · exact hfresh s' (List.mem_cons_of_mem _ hs') hm'
          · have he : settingCol s' = settingCol s := by simpa using hm'
            exact hnd0.1 (he ▸ List.mem_map_of_mem settingCol hs')

lemma buildRow_reads_log (read : Int → Int → Nat → Option (List Nat)) :
    ∀ (settings : List VarSetting) (row : Row) (reads : List (Int × Int × Nat))
      (r : Row),
      (buildRow read settings row reads).1 = some r →
      (buildRow read settings row reads).2 =
        reads ++ settings.map fun s => (s.db, s.start, s.size) := by
  intro settings
  induction settings with
  | nil => intro row reads r _; simp [buildRow]
  | cons s rest ih =>
    intro row reads r h
    simp only [buildRow] at h ⊢
    cases hr : read s.db s.start s.size with
    | none =>
      try rw [hr] at h
      simp at h
    | some raw =>
      try rw [hr] at h
      try rw [hr]
      try dsimp only at h
      try dsimp only
      cases hp : parse_data raw s.dtype with
      | error e =>
        try rw [hp] at h
        try dsimp only at h
        simp at h
      | ok v =>
        try rw [hp] at h
        try rw [hp]
        try dsimp only at h
        try dsimp only
        rw [ih _ _ r h]
        simp

/-- **C2 (counterexample).** With two identical active variables (db 1,
start 0, BOOL — exactly what pressing `+` twice produces), a successful
iteration performs two reads but builds a row of only 2 fields (timestamp
plus a single shared column `DB1_0_BOOL`), not the 1 + 2 fields the claim's
"exactly one value column per active variable" demands. -/
theorem C2_poll_iteration_counterexample :
    ([⟨1, 0, "BOOL", 1⟩, ⟨1, 0, "BOOL", 1⟩] : List VarSetting).length = 2 ∧
    ((buildRow (fun _ _ _ => some [1])
        [⟨1, 0, "BOOL", 1⟩, ⟨1, 0, "BOOL", 1⟩] (initRow 0) []).1.map
      List.length) = some 2 ∧
    (buildRow (fun _ _ _ => some [1])
        [⟨1, 0, "BOOL", 1⟩, ⟨1, 0, "BOOL", 1⟩] (initRow 0) []).2.length = 2 ∧
    ((buildRow (fun _ _ _ => some [1])
        [⟨1, 0, "BOOL", 1⟩, ⟨1, 0, "BOOL", 1⟩] (initRow 0) []).1.map
      List.length) ≠ some (1 + 2) := by
  exact ⟨rfl, by decide, by decide, by decide⟩

/-- **C2 (amended).** A successful iteration of `_poll` performs one
blocking read per active variable (in order, with the settings' read
lengths), decodes each result with `_parse_data`, and concats exactly one
row to the in-memory table, holding the timestamp field plus one value
column named `DB{db}_{start}_{type}` per active variable — provided the
active variables' column names are pairwise distinct; duplicated variables
share one column (see the counterexample). -/
theorem C2_poll_iteration_amended (read : Int → Int → Nat → Option (List Nat))
    (settings : List VarSetting) (t : Nat) (st : PollState)
    (hnd : (settings.map settingCol).Nodup) :
    (buildRow read settings (initRow t) []).1 = buildRowSpec read settings t ∧
    ∀ row, (buildRow read settings (initRow t) []).1 = some row →
      (buildRow read settings (initRow t) []).2 =
        settings.map (fun s => (s.db, s.start, s.size)) ∧
      row.map Prod.fst = "timestamp" :: settings.map settingCol ∧
      pollIter read settings t st =
        ({ st with data_df := st.data_df ++ [row],
                   temp_file := append_temp_file st.temp_file row }, false) := by
  have hfresh : ∀ s ∈ settings, settingCol s ∉ (initRow t).map Prod.fst := by
    intro s _ hm
    have : settingCol s = "timestamp" := by simpa [initRow] using hm
    exact colName_ne_timestamp s.db s.start s.dtype this
  have heq := buildRow_eq_specCols read settings (initRow t) [] hfresh hnd
  have hspec : (buildRow read settings (initRow t) []).1 =
      buildRowSpec read settings t := by
    rw [heq]
    unfold buildRowSpec
    cases specCols read settings <;> simp [initRow]
  refine ⟨hspec, ?_⟩
  intro row hrow
  refine ⟨?_, ?_, ?_⟩
  · have h2 := buildRow_reads_log read settings (initRow t) [] row hrow
    rw [h2]
    simp
  · rw [hspec] at hrow
    unfold buildRowSpec at hrow
    cases hsc : specCols read settings with
    | none => rw [hsc] at hrow; simp at hrow
    | some cs =>
      rw [hsc] at hrow
      simp only [Option.map_some', Option.some.injEq] at hrow
      rw [← hrow]
      have := specCols_keys read settings cs hsc
      simp [initRow, this]
  · simp [pollIter, hrow]

theorem C2_poll_iteration_amended_witness :
    ((buildRow (fun _ _ _ => some [1]) [⟨1, 0, "BOOL", 1⟩] (initRow 0) []).1 =
      buildRowSpec (fun _ _ _ => some [1]) [⟨1, 0, "BOOL", 1⟩] 0) ∧
    ∀ row, (buildRow (fun _ _ _ => some [1])
        [⟨1, 0, "BOOL", 1⟩] (initRow 0) []).1 = some row →
      (buildRow (fun _ _ _ => some [1]) [⟨1, 0, "BOOL", 1⟩] (initRow 0) []).2 =
        ([⟨1, 0, "BOOL", 1⟩] : List VarSetting).map
          (fun s => (s.db, s.start, s.size)) ∧
      row.map Prod.fst =
        "timestamp" :: ([⟨1, 0, "BOOL", 1⟩] : List VarSetting).map settingCol ∧
      pollIter (fun _ _ _ => some [1]) [⟨1, 0, "BOOL", 1⟩] 0
          ⟨true, [], none, []⟩ =
        ({ (⟨true, [], none, []⟩ : PollState) with
            data_df := [] ++ [row],
            temp_file := append_temp_file none row }, false) :=
  C2_poll_iteration_amended (fun _ _ _ => some [1]) [⟨1, 0, "BOOL", 1⟩] 0
    ⟨true, [], none, []⟩ (by decide)

end PLCLogger
